import Mathlib

/-!
Verification of the market-potential computation engine
(`analytics_engine.py`): typed records, criteria filtering,
per-segment aggregation and the per-channel decision chain.

Numeric amounts (Python floats) are modelled as rationals; Python's
`round` (round-half-to-even at a decimal position) is modelled by
`rndHE` / `roundTo`.  The static reference tables
(`MIN_CLIENTS_CONFIG`, `COST_PRICE_CONFIG`, `SEGMENT_DOLYA_DEFAULT`,
`SEGMENT_KPRIB_DEFAULT`) are imported by the engine from a module that
is not part of the sources; following the specification, which
describes them as external read-only inputs, they are passed to the
embedded functions as explicit parameters.
-/

/-- One input record (`FileData` dataclass).  All fields nullable. -/
structure FileData where
  id_lvl_1 : Option Int := none
  id_lvl_2 : Option Int := none
  parameter_id : Option String := none
  fact_amt : Option ℚ := none
  fact_amt_2 : Option ℚ := none
  field_1_value_s : Option String := none
  field_3_value_s : Option String := none
  field_4_value_s : Option String := none
  field_5_value_s : Option String := none
  field_8_value_s : Option String := none
  field_9_value_s : Option String := none
  field_11_value_n : Option Int := none
  field_2_value_s : Option String := none
  deriving DecidableEq, Repr

/-- The four filter dimensions (`filters` dict).  An absent key and an
empty list behave identically in the Python code (both falsy), so each
dimension is a plain list. -/
structure Filters where
  industries : List String := []
  revenue : List String := []
  staff : List String := []
  tb : List String := []
  deriving DecidableEq, Repr

/-- One dimension of `filter_data`: the record passes when the
criteria list is empty, otherwise its value must be a truthy
(non-empty) string that is a member of the list.  Mirrors
`if not record.field or record.field not in crit: continue`. -/
def dimOk (crit : List String) (v : Option String) : Bool :=
  if crit.isEmpty then true
  else
    match v with
    | none => false
    | some s => (!(s == "")) && crit.contains s

/-- Conjunction of the four dimension checks of `filter_data`. -/
def recordOk (f : Filters) (r : FileData) : Bool :=
  dimOk f.industries r.field_5_value_s &&
  dimOk f.revenue r.field_8_value_s &&
  dimOk f.staff r.field_9_value_s &&
  dimOk f.tb r.field_2_value_s

/-- `filter_data`: keep the records passing all four dimensions, in
input order. -/
def filter_data (data : List FileData) (f : Filters) : List FileData :=
  data.filter (recordOk f)

/-- Modelled from the spec: the class prefix of a dotted industry
code — the substring before the first dot (the `filter_data` code has
no such operation; the spec postulates it for broad matching). -/
def classPart (code : String) : String :=
  String.mk (code.toList.takeWhile (fun ch => ch ≠ '.'))

/-- Modelled from the spec: a broad industry code has the shape
`<class>.<0 or 1>`. -/
def isBroadCode (code : String) : Bool :=
  match code.toList.splitOn '.' with
  | [_, sub] => sub = ['0'] || sub = ['1']
  | _ => false

/-- The single industry filter used in the C1 counterexample. -/
def fC1 : Filters := { industries := ["47.0"] }

/-- A record whose industry code has class prefix "47". -/
def rC1 : FileData := { field_5_value_s := some "47.1" }

/-- C1: the claim asserts that the broad code "47.0" makes the filter
include every record whose class prefix is "47".  The code performs
exact string membership only: the record coded "47.1" (same class
prefix as the broad code "47.0") is excluded. -/
theorem C1_counterexample :
    isBroadCode "47.0" = true ∧
    classPart "47.1" = classPart "47.0" ∧
    filter_data [rC1] fC1 = [] := by
  refine ⟨by decide, by decide, ?_⟩
  decide

/-- C1 (amended): industry matching is exact string membership.  For a
record whose industry code is the non-empty string `c`, passing the
other three dimensions, inclusion in the filtered output is equivalent
to the criteria being empty or containing `c` itself; a broad-shaped
code has no prefix-matching power. -/
theorem C1_amended (data : List FileData) (f : Filters) (r : FileData)
    (c : String) (hmem : r ∈ data) (h5 : r.field_5_value_s = some c)
    (hc : c ≠ "")
    (hrev : dimOk f.revenue r.field_8_value_s = true)
    (hstaff : dimOk f.staff r.field_9_value_s = true)
    (htb : dimOk f.tb r.field_2_value_s = true) :
    r ∈ filter_data data f ↔ (f.industries = [] ∨ c ∈ f.industries) := by
  rw [filter_data, List.mem_filter]
  rw [recordOk, h5, hrev, hstaff, htb]
  rw [dimOk]
  constructor
  · rintro ⟨-, h⟩
    by_cases hi : f.industries = []
    · exact Or.inl hi
    · right
      have hie : f.industries.isEmpty = false := by
        simpa [List.isEmpty_iff] using hi
      rw [hie] at h
      simp at h
      exact h.2
  · intro h
    refine ⟨hmem, ?_⟩
    rcases h with h | h
    · simp [h]
    · have hne : f.industries ≠ [] := by
        intro he
        rw [he] at h
        cases h
      have hie : f.industries.isEmpty = false := by
        simpa [List.isEmpty_iff] using hne
      simp [hie, hc, h]

/-- Witness for `C1_amended` at a concrete record and criteria set. -/
theorem C1_amended_witness :
    rC1 ∈ filter_data [rC1] { industries := ["47.1"] } :=
  (C1_amended [rC1] { industries := ["47.1"] } rC1 "47.1"
    (by decide) rfl (by decide) rfl rfl rfl).mpr
    (Or.inr (by decide))

/-- C7: filtering with all-empty criteria is the identity on the
record collection. -/
theorem C7_empty_filter_identity (data : List FileData) :
    filter_data data { industries := [], revenue := [], staff := [], tb := [] } = data := by
  unfold filter_data
  induction data with
  | nil => rfl
  | cons r t ih =>
    simp only [List.filter_cons]
    rw [ih]
    rfl

/-- Round a rational to the nearest integer, ties to even (Python
`round`). -/
def rndHE (x : ℚ) : ℤ :=
  let f := ⌊x⌋
  if x - f < 1 / 2 then f
  else if 1 / 2 < x - f then f + 1
  else if f % 2 = 0 then f else f + 1

/-- Python `round(x, n)`: round half to even at `n` decimal places. -/
def roundTo (n : ℕ) (x : ℚ) : ℚ :=
  (rndHE (x * 10 ^ n) : ℚ) / 10 ^ n

/-- The per-segment raw accumulators built by `step_1_evaluate_market`
before the derived averages are computed. -/
structure SegAcc where
  rynek : ℚ
  active : ℚ
  sleeping : ℚ
  num_non_market : ℕ
  fact_amt_2_sum_rynek : ℚ
  fact_amt_sum_rynek : ℚ
  field_11_sum_rynek : ℚ
  deriving DecidableEq, Repr

/-- The all-zero accumulator a fresh segment starts from. -/
def accZero : SegAcc := ⟨0, 0, 0, 0, 0, 0, 0⟩

/-- Segment key of a record: `record.field_1_value_s or "Неизвестно"`
(`None` and the empty string are both falsy). -/
def segOf (r : FileData) : String :=
  match r.field_1_value_s with
  | none => "Неизвестно"
  | some s => if s = "" then "Неизвестно" else s

/-- Fold one record into a segment accumulator.  `x or 0.0` on the
nullable amounts is `Option.getD 0`; the `elif` chain over the
relationship label is written additively (a label equals at most one
of the three constants, so the forms coincide). -/
def accUpdate (a : SegAcc) (r : FileData) : SegAcc :=
  let fact_amt : ℚ := r.fact_amt.getD 0
  let fact_amt_2 : ℚ := r.fact_amt_2.getD 0
  let field_11 : ℚ := ((r.field_11_value_n.getD 0 : ℤ) : ℚ)
  { rynek := a.rynek + (if r.field_4_value_s = some "Рынок" then fact_amt else 0)
    active := a.active + (if r.field_4_value_s = some "Клиент" then fact_amt else 0)
    sleeping := a.sleeping + (if r.field_4_value_s = some "НеКлиент" then fact_amt else 0)
    num_non_market := a.num_non_market + (if r.field_4_value_s = some "Рынок" then 0 else 1)
    fact_amt_2_sum_rynek :=
      a.fact_amt_2_sum_rynek + (if r.field_4_value_s = some "Рынок" then fact_amt_2 else 0)
    fact_amt_sum_rynek :=
      a.fact_amt_sum_rynek + (if r.field_4_value_s = some "Рынок" then fact_amt else 0)
    field_11_sum_rynek :=
      a.field_11_sum_rynek + (if r.field_4_value_s = some "Рынок" then field_11 else 0) }

/-- Insert-or-update of the segment dictionary, preserving first
insertion order as a Python dict does. -/
def addRecord : List (String × SegAcc) → FileData → List (String × SegAcc)
  | [], r => [(segOf r, accUpdate accZero r)]
  | (k, a) :: t, r =>
      if k = segOf r then (k, accUpdate a r) :: t else (k, a) :: addRecord t r

/-- The accumulation loop of `step_1_evaluate_market`. -/
def step_1_aggregate (data : List FileData) : List (String × SegAcc) :=
  data.foldl addRecord []

/-- A finalized per-segment metrics object: the raw accumulators kept
in the dict plus the derived averages. -/
structure SegMetrics where
  acc : SegAcc
  avg_revenue : ℚ
  avg_staff : ℤ
  avg_check : ℚ
  deriving DecidableEq, Repr

/-- The derived-averages pass of `step_1_evaluate_market`:
average revenue (millions, 3 decimals) and average staff over
`fact_amt_sum_rynek + num_non_market`, and the average check with the
100 000 fallback when the market amount sum is not positive. -/
def finalizeAcc (a : SegAcc) : SegMetrics :=
  let denominator : ℚ := a.fact_amt_sum_rynek + (a.num_non_market : ℚ)
  let avg_revenue : ℚ :=
    if 0 < denominator then roundTo 3 (a.fact_amt_2_sum_rynek / denominator / 1000000) else 0
  let avg_staff : ℤ :=
    if 0 < denominator then rndHE (a.field_11_sum_rynek / denominator) else 0
  let avg_check : ℚ :=
    if 0 < a.fact_amt_sum_rynek then a.fact_amt_2_sum_rynek / a.fact_amt_sum_rynek
    else 100000
  ⟨a, avg_revenue, avg_staff, avg_check⟩

/-- `step_1_evaluate_market`: aggregate, then derive the averages for
every segment. -/
def step_1_evaluate_market (data : List FileData) : List (String × SegMetrics) :=
  (step_1_aggregate data).map (fun p => (p.1, finalizeAcc p.2))

/-- First-match lookup in an association list (Python dict access). -/
def lookupA {α : Type} (m : List (String × α)) (s : String) : Option α :=
  (m.find? (fun p => p.1 == s)).map Prod.snd

/-- Pointwise sum of two segment accumulators. -/
def accAdd (a b : SegAcc) : SegAcc :=
  ⟨a.rynek + b.rynek, a.active + b.active, a.sleeping + b.sleeping,
   a.num_non_market + b.num_non_market,
   a.fact_amt_2_sum_rynek + b.fact_amt_2_sum_rynek,
   a.fact_amt_sum_rynek + b.fact_amt_sum_rynek,
   a.field_11_sum_rynek + b.field_11_sum_rynek⟩

/-- Merge of two optional accumulators: missing segments behave as
absent, present ones add pointwise. -/
def optMerge : Option SegAcc → Option SegAcc → Option SegAcc
  | none, b => b
  | some a, none => some a
  | some a, some b => some (accAdd a b)

/-- The accumulator of segment `s` after processing a record list,
starting from an optional partial accumulator. -/
def runSeg (s : String) : Option SegAcc → List FileData → Option SegAcc
  | o, [] => o
  | o, r :: t =>
      if segOf r = s then runSeg s (some (accUpdate (o.getD accZero) r)) t
      else runSeg s o t

lemma accUpdate_eq_add (a : SegAcc) (r : FileData) :
    accUpdate a r = accAdd a (accUpdate accZero r) := by
  simp [accUpdate, accAdd, accZero]

lemma accAdd_assoc (a b c : SegAcc) :
    accAdd (accAdd a b) c = accAdd a (accAdd b c) := by
  simp [accAdd, add_assoc]

lemma lookupA_cons {α : Type} (k : String) (a : α) (t : List (String × α))
    (s : String) :
    lookupA ((k, a) :: t) s = if k = s then some a else lookupA t s := by
  by_cases h : k = s
  · simp [lookupA, List.find?, h]
  · have hb : (k == s) = false := by simpa using h
    simp [lookupA, List.find?, hb, h]

lemma lookupA_addRecord (m : List (String × SegAcc)) (r : FileData) (s : String) :
    lookupA (addRecord m r) s =
      if segOf r = s then some (accUpdate ((lookupA m s).getD accZero) r)
      else lookupA m s := by
  induction m with
  | nil =>
    by_cases h : segOf r = s
    · simp [addRecord, lookupA_cons, lookupA, h]
    · simp [addRecord, lookupA_cons, lookupA, h]
  | cons hd t ih =>
    obtain ⟨k, a⟩ := hd
    by_cases hk : k = segOf r
    · by_cases hs : segOf r = s
      · have hks : k = s := hk.trans hs
        simp [addRecord, if_pos hk, lookupA_cons, hks, hs]
      · have hks : ¬k = s := fun he => hs (hk.symm.trans he)
        simp [addRecord, if_pos hk, lookupA_cons, hks, hs]
    · by_cases hs : k = s
      · have h2 : ¬segOf r = s := fun he => hk (hs.trans he.symm)
        simp only [addRecord, if_neg hk]
        simp [lookupA_cons, hs, h2]
      · simp [addRecord, if_neg hk, lookupA_cons, hs, ih]

lemma lookupA_foldl (l : List FileData) (m : List (String × SegAcc)) (s : String) :
    lookupA (l.foldl addRecord m) s = runSeg s (lookupA m s) l := by
  induction l generalizing m with
  | nil => rfl
  | cons r t ih =>
    simp only [List.foldl_cons]
    rw [ih, lookupA_addRecord]
    by_cases h : segOf r = s
    · simp [runSeg, h]
    · simp [runSeg, h]

lemma runSeg_append (s : String) (l1 l2 : List FileData) (o : Option SegAcc) :
    runSeg s o (l1 ++ l2) = runSeg s (runSeg s o l1) l2 := by
  induction l1 generalizing o with
  | nil => rfl
  | cons r t ih =>
    by_cases h : segOf r = s
    · simp only [List.cons_append, runSeg, if_pos h]
      exact ih _
    · simp only [List.cons_append, runSeg, if_neg h]
      exact ih o

lemma runSeg_optMerge (s : String) (l : List FileData) (o : Option SegAcc) :
    runSeg s o l = optMerge o (runSeg s none l) := by
  induction l generalizing o with
  | nil => cases o <;> rfl
  | cons r t ih =>
    by_cases h : segOf r = s
    · simp only [runSeg, if_pos h]
      rw [ih, ih (some (accUpdate (Option.getD none accZero) r))]
      cases o with
      | none => rfl
      | some a =>
        cases hr : runSeg s none t with
        | none =>
          simp [optMerge, accUpdate_eq_add a r]
        | some b =>
          simp [optMerge, accUpdate_eq_add a r, accAdd_assoc]
    · simp only [runSeg, if_neg h]
      exact ih o

lemma lookupA_map_finalize (m : List (String × SegAcc)) (s : String) :
    lookupA (m.map (fun p => (p.1, finalizeAcc p.2))) s =
      (lookupA m s).map finalizeAcc := by
  induction m with
  | nil => rfl
  | cons hd t ih =>
    obtain ⟨k, a⟩ := hd
    by_cases h : k = s
    · simp [lookupA_cons, h]
    · simp [lookupA_cons, h, ih]

/-- C8: segment aggregation is associative.  For every two-part
partition of the record collection and every segment, the accumulator
obtained in a single pass over the whole collection equals the merge of
the accumulators of the two parts, and the finalized per-segment
metrics of the single pass equal the metrics derived from the merged
accumulators. -/
theorem C8_aggregation_associative (l1 l2 : List FileData) (s : String) :
    lookupA (step_1_aggregate (l1 ++ l2)) s =
      optMerge (lookupA (step_1_aggregate l1) s) (lookupA (step_1_aggregate l2) s) ∧
    lookupA (step_1_evaluate_market (l1 ++ l2)) s =
      (optMerge (lookupA (step_1_aggregate l1) s)
        (lookupA (step_1_aggregate l2) s)).map finalizeAcc := by
  have hibase : ∀ l : List FileData, lookupA (step_1_aggregate l) s = runSeg s none l := by
    intro l
    have := lookupA_foldl l [] s
    simpa [step_1_aggregate, lookupA] using this
  have hmain : lookupA (step_1_aggregate (l1 ++ l2)) s =
      optMerge (lookupA (step_1_aggregate l1) s) (lookupA (step_1_aggregate l2) s) := by
    rw [hibase, hibase, hibase, runSeg_append, runSeg_optMerge]
  refine ⟨hmain, ?_⟩
  rw [step_1_evaluate_market, lookupA_map_finalize, hmain]

/-- C9: a record whose primary amount, secondary amount and staff
count are all null contributes exactly 0 to every accumulator sum — it
updates the accumulator exactly as the same record with the amounts
replaced by explicit zeros would — and it still increments the
non-market row count exactly when its relationship label differs from
"Рынок". -/
theorem C9_null_amounts_contribute_zero (a : SegAcc) (r : FileData)
    (h1 : r.fact_amt = none) (h2 : r.fact_amt_2 = none)
    (h3 : r.field_11_value_n = none) :
    accUpdate a r =
      accUpdate a { r with fact_amt := some 0, fact_amt_2 := some 0,
                           field_11_value_n := some 0 } ∧
    (accUpdate a r).rynek = a.rynek ∧
    (accUpdate a r).active = a.active ∧
    (accUpdate a r).sleeping = a.sleeping ∧
    (accUpdate a r).fact_amt_2_sum_rynek = a.fact_amt_2_sum_rynek ∧
    (accUpdate a r).fact_amt_sum_rynek = a.fact_amt_sum_rynek ∧
    (accUpdate a r).field_11_sum_rynek = a.field_11_sum_rynek ∧
    (r.field_4_value_s ≠ some "Рынок" →
      (accUpdate a r).num_non_market = a.num_non_market + 1) := by
  refine ⟨?_, ?_, ?_, ?_, ?_, ?_, ?_, ?_⟩ <;>
    simp [accUpdate, h1, h2, h3]

/-- Witness for `C9_null_amounts_contribute_zero` on a concrete
record with all-null amounts and a non-market label. -/
theorem C9_witness :
    accUpdate accZero { field_4_value_s := some "Клиент" } =
      accUpdate accZero
        { field_4_value_s := some "Клиент", fact_amt := some 0,
          fact_amt_2 := some 0, field_11_value_n := some 0 } ∧
    (accUpdate accZero { field_4_value_s := some "Клиент" }).num_non_market =
      accZero.num_non_market + 1 :=
  have h := C9_null_amounts_contribute_zero accZero
    { field_4_value_s := some "Клиент" } rfl rfl rfl
  ⟨h.1, h.2.2.2.2.2.2.2 (by decide)⟩

/-- One entry of `MIN_CLIENTS_CONFIG`: minimum client threshold keyed
by channel and segment.  Modelled from the spec: the table itself
lives in the absent `reference_data` module. -/
structure MinClientsEntry where
  channel : String
  segment : String
  min_clients : ℚ
  deriving DecidableEq, Repr

/-- One entry of `COST_PRICE_CONFIG`.  Modelled from the spec: the
table itself lives in the absent `reference_data` module; the engine
matches on channel, product type, the literal sum type
"Себестоимость" and segment. -/
structure CostPriceEntry where
  channel : String
  product_type : String
  sum_type : String
  segment : String
  amount : ℚ
  deriving DecidableEq, Repr

/-- Per-segment override parameters (`segment_params[seg]`), each key
optional as in the Python nested-dict access. -/
structure SegParams where
  dolya : Option ℚ := none
  kpr : Option ℚ := none
  deriving DecidableEq, Repr

/-- One output row of `step_2_calculate_potential`. -/
structure DecisionRow where
  channel : String
  segment : String
  calc_clients : ℚ
  potential_amount : ℚ
  rate_ab : ℚ
  amount_ab : ℚ
  amount_chkd : ℚ
  revenue : ℚ
  total_potential : ℚ
  decision : String
  explanation : String
  deriving DecidableEq, Repr

/-- The predicate of the `_get_cost_price` linear search. -/
def costMatches (channel product_type segment : String)
    (cp : CostPriceEntry) : Bool :=
  cp.channel == channel && cp.product_type == product_type &&
  cp.sum_type == "Себестоимость" && cp.segment == segment

/-- `_get_cost_price`: first matching entry, or the documented default
1000.0 when the table has none. -/
def get_cost_price (cfg : List CostPriceEntry)
    (channel segment product_type : String) : ℚ :=
  match cfg.find? (costMatches channel product_type segment) with
  | some cp => cp.amount
  | none => 1000

/-- `calc_clients`: sum of the three relationship totals of the
segment (`or 0.0` on present rational fields is the identity). -/
def calcClients (m : SegMetrics) : ℚ :=
  m.acc.rynek + m.acc.active + m.acc.sleeping

/-- `metrics.get("avg_check") or 100_000.0`: an absent or zero average
check is replaced by the constant 100 000. -/
def effAvgCheck (v : Option ℚ) : ℚ :=
  match v with
  | none => 100000
  | some x => if x = 0 then 100000 else x

/-- The body of the per-channel loop of `step_2_calculate_potential`:
the short-circuiting decision chain producing one row. -/
def evalChannel (costCfg : List CostPriceEntry)
    (dolyaDefault kpribDefault : List (String × ℚ))
    (segment_params : List (String × SegParams)) (product_type : String)
    (seg : String) (calc_clients avg_check : ℚ)
    (ch : MinClientsEntry) : DecisionRow :=
  if calc_clients < ch.min_clients then
    ⟨ch.channel, seg, roundTo 3 calc_clients, 0, 0, 0, 0, 0, 0, "нет",
      "Мало клиентов (calc_clients < min_clients)"⟩
  else
    let cost_price := get_cost_price costCfg ch.channel seg product_type
    let potential_amount := roundTo 3 (calc_clients * avg_check / 1000000 * (5 / 100))
    let rate_ab := roundTo 1 (cost_price / avg_check * 100)
    if rate_ab = 0 then
      ⟨ch.channel, seg, roundTo 3 calc_clients, potential_amount, rate_ab,
        0, 0, 0, 0, "нет", "Ставка 0% после округления"⟩
    else
      let amount_ab := potential_amount * rate_ab / 100
      let seg_dolya :=
        match (lookupA segment_params seg).bind SegParams.dolya with
        | some d => d
        | none => (lookupA dolyaDefault seg).getD 0
      let seg_kprib :=
        match (lookupA segment_params seg).bind SegParams.kpr with
        | some k => k
        | none => (lookupA kpribDefault seg).getD 0
      let amount_chkd := amount_ab * seg_dolya / 100
      let revenue_val := amount_chkd * seg_kprib / 100
      let total_potential := amount_ab + amount_chkd + revenue_val
      ⟨ch.channel, seg, roundTo 3 calc_clients, potential_amount, rate_ab,
        roundTo 3 amount_ab, roundTo 3 amount_chkd, roundTo 3 revenue_val,
        roundTo 3 total_potential, "да", "Прошёл все проверки"⟩

/-- The rows produced for one segment: one per eligible channel of
`MIN_CLIENTS_CONFIG`, in table order (a segment with no eligible
channels produces no rows). -/
def segRows (minClients : List MinClientsEntry) (costCfg : List CostPriceEntry)
    (dolyaDefault kpribDefault : List (String × ℚ))
    (segment_params : List (String × SegParams)) (product_type : String)
    (seg : String) (m : SegMetrics) : List DecisionRow :=
  (minClients.filter (fun c => c.segment == seg)).map
    (evalChannel costCfg dolyaDefault kpribDefault segment_params product_type
      seg (calcClients m) (effAvgCheck (some m.avg_check)))

/-- `step_2_calculate_potential`: decision rows for every segment in
metric order, then channel order. -/
def step_2_calculate_potential (minClients : List MinClientsEntry)
    (costCfg : List CostPriceEntry)
    (dolyaDefault kpribDefault : List (String × ℚ))
    (segment_metrics : List (String × SegMetrics))
    (segment_params : List (String × SegParams))
    (product_type : String) : List DecisionRow :=
  segment_metrics.flatMap (fun p =>
    segRows minClients costCfg dolyaDefault kpribDefault segment_params
      product_type p.1 p.2)

lemma evalChannel_explanation_cases (cc : List CostPriceEntry)
    (dd kd : List (String × ℚ)) (sp : List (String × SegParams))
    (pt seg : String) (c av : ℚ) (ch : MinClientsEntry) :
    (evalChannel cc dd kd sp pt seg c av ch).explanation =
        "Мало клиентов (calc_clients < min_clients)" ∨
    (evalChannel cc dd kd sp pt seg c av ch).explanation =
        "Ставка 0% после округления" ∨
    (evalChannel cc dd kd sp pt seg c av ch).explanation =
        "Прошёл все проверки" := by
  unfold evalChannel
  by_cases h1 : c < ch.min_clients
  · rw [if_pos h1]
    simp
  · rw [if_neg h1]
    by_cases h2 : roundTo 1 (get_cost_price cc ch.channel seg pt / av * 100) = 0
    · rw [if_pos h2]
      simp
    · rw [if_neg h2]
      simp

lemma evalChannel_no_fields_zero (cc : List CostPriceEntry)
    (dd kd : List (String × ℚ)) (sp : List (String × SegParams))
    (pt seg : String) (c av : ℚ) (ch : MinClientsEntry)
    (h : (evalChannel cc dd kd sp pt seg c av ch).decision = "нет") :
    (evalChannel cc dd kd sp pt seg c av ch).rate_ab = 0 ∧
    (evalChannel cc dd kd sp pt seg c av ch).amount_ab = 0 ∧
    (evalChannel cc dd kd sp pt seg c av ch).amount_chkd = 0 ∧
    (evalChannel cc dd kd sp pt seg c av ch).revenue = 0 ∧
    (evalChannel cc dd kd sp pt seg c av ch).total_potential = 0 ∧
    ((evalChannel cc dd kd sp pt seg c av ch).explanation =
        "Мало клиентов (calc_clients < min_clients)" →
      (evalChannel cc dd kd sp pt seg c av ch).potential_amount = 0) := by
  unfold evalChannel at h ⊢
  by_cases h1 : c < ch.min_clients
  · rw [if_pos h1]
    simp
  · rw [if_neg h1] at h ⊢
    by_cases h2 : roundTo 1 (get_cost_price cc ch.channel seg pt / av * 100) = 0
    · rw [if_pos h2]
      simp [h2]
    · rw [if_neg h2] at h
      simp at h

/-- A one-channel eligibility table with threshold 1 for segment "A". -/
def mcA1 : List MinClientsEntry := [⟨"Канал1", "A", 1⟩]

/-- A cost table holding cost price 100 000 for the triple
("Канал1", "A", "Коробка"). -/
def cpA : List CostPriceEntry :=
  [⟨"Канал1", "Коробка", "Себестоимость", "A", 100000⟩]

/-- Metrics of a segment with 10 market units and average check 1. -/
def smC2 : List (String × SegMetrics) :=
  [("A", ⟨⟨10, 0, 0, 0, 0, 0, 0⟩, 0, 0, 1⟩)]

/-- C2: the claim asserts that with no cost entry for the triple the
evaluator emits decision "no" naming the missing cost reference.  With
an empty cost table the code substitutes the default 1000.0 and
produces decision "да" with the all-checks-passed explanation. -/
theorem C2_counterexample :
    ([] : List CostPriceEntry).find? (costMatches "Канал1" "Коробка" "A") = none ∧
    (step_2_calculate_potential mcA1 [] [] [] smC2 [] "Коробка").map
      (fun row => (row.decision, row.explanation)) =
      [("да", "Прошёл все проверки")] := by
  refine ⟨rfl, ?_⟩
  norm_num [step_2_calculate_potential, segRows, evalChannel, calcClients,
    effAvgCheck, get_cost_price, costMatches, lookupA, roundTo, rndHE,
    mcA1, smC2]

/-- C2 (amended): when no cost entry exists for (channel, segment,
product-type) the evaluator substitutes the default cost price 1000.0
and continues the chain; no decision row ever carries a
missing-cost-reference explanation — the only explanations are the
too-few-clients, zero-rate and all-checks-passed strings. -/
theorem C2_amended :
    (∀ (cfg : List CostPriceEntry) (channel segment product_type : String),
      cfg.find? (costMatches channel product_type segment) = none →
      get_cost_price cfg channel segment product_type = 1000) ∧
    (∀ (mc : List MinClientsEntry) (cc : List CostPriceEntry)
      (dd kd : List (String × ℚ)) (sm : List (String × SegMetrics))
      (sp : List (String × SegParams)) (pt : String) (row : DecisionRow),
      row ∈ step_2_calculate_potential mc cc dd kd sm sp pt →
      row.explanation = "Мало клиентов (calc_clients < min_clients)" ∨
      row.explanation = "Ставка 0% после округления" ∨
      row.explanation = "Прошёл все проверки") := by
  constructor
  · intro cfg channel segment product_type h
    unfold get_cost_price
    rw [h]
  · intro mc cc dd kd sm sp pt row hrow
    rw [step_2_calculate_potential] at hrow
    rcases List.mem_flatMap.mp hrow with ⟨p, hp, hr⟩
    rw [segRows] at hr
    rcases List.mem_map.mp hr with ⟨ch, hch, hrw⟩
    subst hrw
    exact evalChannel_explanation_cases _ _ _ _ _ _ _ _ _

/-- Witness for `C2_amended` on the empty cost table. -/
theorem C2_amended_witness :
    get_cost_price [] "Канал1" "A" "Коробка" = 1000 :=
  C2_amended.1 [] "Канал1" "A" "Коробка" rfl

/-- Metrics of a segment with 1 market unit and a huge average check,
driving the rate below the 1-decimal rounding threshold. -/
def smC3 : List (String × SegMetrics) :=
  [("A", ⟨⟨1, 0, 0, 0, 0, 0, 0⟩, 0, 0, 10000000⟩)]

/-- A cost table with cost price 1 for ("Канал1", "A", "Коробка"). -/
def cpC3 : List CostPriceEntry :=
  [⟨"Канал1", "Коробка", "Себестоимость", "A", 1⟩]

/-- C3: the claim asserts every "no" row has all monetary fields zero.
In the rate-rounds-to-zero branch the row keeps the already-computed
potential amount: here decision is "нет" yet potential_amount = 0.5. -/
theorem C3_counterexample :
    (step_2_calculate_potential mcA1 cpC3 [] [] smC3 [] "Коробка").map
      (fun row => (row.decision, row.potential_amount)) = [("нет", 1/2)] ∧
    ((1 : ℚ)/2 ≠ 0) := by
  refine ⟨?_, by norm_num⟩
  norm_num [step_2_calculate_potential, segRows, evalChannel, calcClients,
    effAvgCheck, get_cost_price, costMatches, lookupA, roundTo, rndHE,
    mcA1, smC3, cpC3]

/-- C3 (amended): in every "no" decision row the rate, ab-amount,
chkd-amount, revenue and total potential are exactly zero, and the
potential amount is zero in the too-few-clients branch; in the
rate-rounds-to-zero branch the potential amount keeps its computed
value. -/
theorem C3_amended (mc : List MinClientsEntry) (cc : List CostPriceEntry)
    (dd kd : List (String × ℚ)) (sm : List (String × SegMetrics))
    (sp : List (String × SegParams)) (pt : String) (row : DecisionRow)
    (hrow : row ∈ step_2_calculate_potential mc cc dd kd sm sp pt)
    (hdec : row.decision = "нет") :
    row.rate_ab = 0 ∧ row.amount_ab = 0 ∧ row.amount_chkd = 0 ∧
    row.revenue = 0 ∧ row.total_potential = 0 ∧
    (row.explanation = "Мало клиентов (calc_clients < min_clients)" →
      row.potential_amount = 0) := by
  rw [step_2_calculate_potential] at hrow
  rcases List.mem_flatMap.mp hrow with ⟨p, hp, hr⟩
  rw [segRows] at hr
  rcases List.mem_map.mp hr with ⟨ch, hch, hrw⟩
  subst hrw
  exact evalChannel_no_fields_zero _ _ _ _ _ _ _ _ _ hdec

/-- A one-channel table with threshold 5 for segment "A". -/
def mcW : List MinClientsEntry := [⟨"Канал1", "A", 5⟩]

/-- Metrics of a segment with a single market unit. -/
def mW : SegMetrics := ⟨⟨1, 0, 0, 0, 0, 0, 0⟩, 0, 0, 1⟩

/-- Segment-metric mapping used by the too-few-clients witnesses. -/
def smW : List (String × SegMetrics) := [("A", mW)]

/-- The too-few-clients row those witnesses are about. -/
def rowW : DecisionRow :=
  ⟨"Канал1", "A", 1, 0, 0, 0, 0, 0, 0, "нет",
    "Мало клиентов (calc_clients < min_clients)"⟩

/-- Witness for `C3_amended` on a concrete too-few-clients row. -/
theorem C3_amended_witness :
    rowW.rate_ab = 0 ∧ rowW.amount_ab = 0 ∧ rowW.amount_chkd = 0 ∧
    rowW.revenue = 0 ∧ rowW.total_potential = 0 ∧
    (rowW.explanation = "Мало клиентов (calc_clients < min_clients)" →
      rowW.potential_amount = 0) :=
  C3_amended mcW [] [] [] smW [] "Коробка" rowW
    (by
      norm_num [step_2_calculate_potential, segRows, evalChannel, calcClients,
        effAvgCheck, get_cost_price, costMatches, lookupA, roundTo, rndHE,
        mcW, smW, mW, rowW])
    (by norm_num [rowW])

/-- Metrics of a segment whose average check is exactly zero. -/
def mC4 : SegMetrics := ⟨⟨1, 0, 0, 0, 0, 0, 0⟩, 0, 0, 0⟩

/-- Segment-metric mapping with the zero average check. -/
def smC4 : List (String × SegMetrics) := [("A", mC4)]

/-- C4: the claim asserts that a segment with non-positive average
check gets decision "no" with reason "zero average amount".  The code
has no such check: it silently substitutes 100 000 and the channel
passes with decision "да" and rate 100. -/
theorem C4_counterexample :
    mC4.avg_check = 0 ∧
    (step_2_calculate_potential mcA1 cpA [] [] smC4 [] "Коробка").map
      (fun row => (row.decision, row.explanation, row.rate_ab)) =
      [("да", "Прошёл все проверки", 100)] := by
  refine ⟨rfl, ?_⟩
  norm_num [step_2_calculate_potential, segRows, evalChannel, calcClients,
    effAvgCheck, get_cost_price, costMatches, lookupA, roundTo, rndHE,
    mcA1, smC4, mC4, cpA]

/-- C4 (amended): when the segment's average check is zero the
evaluator substitutes the constant 100 000 and continues the chain —
its rows are identical to those of the same segment with average check
100 000; no "zero average amount" decision exists. -/
theorem C4_amended (mc : List MinClientsEntry) (cc : List CostPriceEntry)
    (dd kd : List (String × ℚ)) (sp : List (String × SegParams))
    (pt seg : String) (m : SegMetrics) (h : m.avg_check = 0) :
    segRows mc cc dd kd sp pt seg m =
      segRows mc cc dd kd sp pt seg { m with avg_check := 100000 } := by
  norm_num [segRows, effAvgCheck, calcClients, h]

/-- Witness for `C4_amended` at the concrete zero-average-check
metrics. -/
theorem C4_amended_witness :
    segRows mcA1 cpA [] [] [] "Коробка" "A" mC4 =
      segRows mcA1 cpA [] [] [] "Коробка" "A" { mC4 with avg_check := 100000 } :=
  C4_amended mcA1 cpA [] [] [] "Коробка" "A" mC4 rfl

/-- First record of the end-to-end example: Market relationship,
primary amount 600 000, secondary amount 1 200 000, segment "A". -/
def r1C5 : FileData :=
  { fact_amt := some 600000
    fact_amt_2 := some 1200000
    field_1_value_s := some "A"
    field_4_value_s := some "Рынок" }

/-- Second record of the end-to-end example: Market relationship,
primary amount 400 000, secondary amount 800 000, segment "A". -/
def r2C5 : FileData :=
  { fact_amt := some 400000
    fact_amt_2 := some 800000
    field_1_value_s := some "A"
    field_4_value_s := some "Рынок" }

/-- The decision rows of the end-to-end example: channel "Канал1" with
minimum 1 client and cost price 100 000 for segment "A". -/
def rowsC5 : List DecisionRow :=
  step_2_calculate_potential mcA1 cpA [] []
    (step_1_evaluate_market [r1C5, r2C5]) [] "Коробка"

/-- C5: on the spec's end-to-end example the code computes
rate = 100 000 / 2.0 × 100 = 5 000 000.0 and ab_amount = 5000.0, not
the rate 10.0 and ab_amount 0.01 the claim expects. -/
theorem C5_counterexample :
    rowsC5.map (fun row => (row.rate_ab, row.amount_ab)) = [(5000000, 5000)] ∧
    ((5000000 : ℚ) ≠ 10 ∧ (5000 : ℚ) ≠ 1/100) := by
  refine ⟨?_, by norm_num, by norm_num⟩
  norm_num [rowsC5, step_2_calculate_potential, segRows, evalChannel,
    calcClients, effAvgCheck, get_cost_price, costMatches, lookupA,
    step_1_evaluate_market, step_1_aggregate, addRecord, accUpdate, accZero,
    segOf, finalizeAcc, mcA1, cpA, r1C5, r2C5]
  simp
  norm_num [evalChannel, calcClients, effAvgCheck, get_cost_price,
    costMatches, lookupA, roundTo, rndHE]

/-- C5 (amended): on the end-to-end example the pipeline yields
average check 2.0, potential amount 0.1, rate 5 000 000.0,
ab_amount 5000.0 and decision "да". -/
theorem C5_amended :
    (lookupA (step_1_evaluate_market [r1C5, r2C5]) "A").map SegMetrics.avg_check =
      some 2 ∧
    rowsC5.map (fun row =>
      (row.potential_amount, row.rate_ab, row.amount_ab, row.decision)) =
      [(1/10, 5000000, 5000, "да")] := by
  constructor
  · norm_num [step_1_evaluate_market, step_1_aggregate, addRecord, accUpdate,
      accZero, segOf, finalizeAcc, roundTo, rndHE, lookupA, List.find?,
      r1C5, r2C5]
    simp
    exact ⟨_, _, ⟨rfl, rfl⟩, rfl⟩
  · norm_num [rowsC5, step_2_calculate_potential, segRows, evalChannel,
      calcClients, effAvgCheck, get_cost_price, costMatches, lookupA,
      step_1_evaluate_market, step_1_aggregate, addRecord, accUpdate, accZero,
      segOf, finalizeAcc, mcA1, cpA, r1C5, r2C5]
    simp
    norm_num [evalChannel, calcClients, effAvgCheck, get_cost_price,
      costMatches, lookupA, roundTo, rndHE]

/-- C6: whenever a segment's computed client count is strictly below
an eligible channel's minimum threshold, the evaluator emits for that
channel the decision row with decision "нет", the too-few-clients
reason and every monetary field exactly 0 — independently of the cost
table, the parameter tables and the product type, which shows the
later steps of the chain are skipped. -/
theorem C6_min_clients_no (mc : List MinClientsEntry) (cc : List CostPriceEntry)
    (dd kd : List (String × ℚ)) (sm : List (String × SegMetrics))
    (sp : List (String × SegParams)) (pt seg : String)
    (m : SegMetrics) (ch : MinClientsEntry) (hsm : (seg, m) ∈ sm)
    (hch : ch ∈ mc) (hseg : ch.segment = seg)
    (hlt : calcClients m < ch.min_clients) :
    (⟨ch.channel, seg, roundTo 3 (calcClients m), 0, 0, 0, 0, 0, 0, "нет",
      "Мало клиентов (calc_clients < min_clients)"⟩ : DecisionRow) ∈
      step_2_calculate_potential mc cc dd kd sm sp pt := by
  rw [step_2_calculate_potential]
  apply List.mem_flatMap.mpr
  refine ⟨(seg, m), hsm, ?_⟩
  rw [segRows]
  apply List.mem_map.mpr
  refine ⟨ch, List.mem_filter.mpr ⟨hch, by simp [hseg]⟩, ?_⟩
  unfold evalChannel
  rw [if_pos hlt]

/-- Witness for `C6_min_clients_no` on a concrete below-threshold
segment. -/
theorem C6_witness :
    (⟨"Канал1", "A", roundTo 3 (calcClients mW), 0, 0, 0, 0, 0, 0, "нет",
      "Мало клиентов (calc_clients < min_clients)"⟩ : DecisionRow) ∈
      step_2_calculate_potential mcW [] [] [] smW [] "Коробка" :=
  C6_min_clients_no mcW [] [] [] smW [] "Коробка" "A" mW ⟨"Канал1", "A", 5⟩
    (by simp [smW]) (by simp [mcW]) rfl
    (by norm_num [calcClients, mW])

/-- C10: the divisor used by the channel evaluator for the rate is
never zero — `effAvgCheck`, the embedding of
`metrics.get("avg_check") or 100_000.0`, replaces an absent or zero
average check by 100 000 and never returns 0, so the rate division in
`evalChannel` is total. -/
theorem C10_divisor_nonzero (v : Option ℚ) :
    effAvgCheck v ≠ 0 ∧ ((v = none ∨ v = some 0) → effAvgCheck v = 100000) := by
  constructor
  · cases v with
    | none => norm_num [effAvgCheck]
    | some x =>
      by_cases h : x = 0
      · norm_num [effAvgCheck, h]
      · simp [effAvgCheck, h]
  · rintro (rfl | rfl) <;> norm_num [effAvgCheck]

/-- Witness for `C10_divisor_nonzero` at the zero average check. -/
theorem C10_witness : effAvgCheck (some 0) = 100000 :=
  (C10_divisor_nonzero (some 0)).2 (Or.inr rfl)
